import Mathlib

/-!
Verification of the task-tracker data/query engine (`src/database.py`,
class `DatabaseManager`) against its natural-language specification.

The SQLite-backed store is modelled as an explicit state (`DBState`)
holding the four tables as lists of rows; every database operation is a
pure function taking and returning this state.  `CURRENT_TIMESTAMP` is
modelled by an explicit `now : Nat` argument.  `ORDER BY` clauses are
modelled with `List.insertionSort` (a stable sort; SQLite leaves tie
order unspecified, so any fixed tie order is a faithful refinement);
SQLite compares `TEXT` values lexicographically and, in default `ASC`
order, places `NULL`s first, which the model mirrors.

The repository references a `schema.sql` file that is not part of the
sources; the constraints it declares (surrogate integer primary keys,
`UNIQUE` tag names, and a unique `(task_id, tag_id)` pair in
`task_tags`) are modelled from the spec where a claim needs them, as
well-formedness hypotheses (`WF`).  SQLite foreign keys are not enabled
by the code (no `PRAGMA foreign_keys`), so the association table accepts
pairs whose `task_id` matches no task, as the spec's design notes state.
-/

/-- Row of the `projects` table. -/
structure Project where
  id : Nat
  name : String
  description : String
  created_at : Nat
  updated_at : Nat
deriving Repr, DecidableEq

/-- Row of the `tasks` table.  `due_date` is stored as `TEXT` (`NULL`
allowed); `project_id` is a nullable reference. -/
structure TaskRow where
  id : Nat
  title : String
  description : String
  priority : String
  status : String
  project_id : Option Nat
  due_date : Option String
  created_at : Nat
  updated_at : Nat
deriving Repr, DecidableEq

/-- Row of the `tags` table. -/
structure Tag where
  id : Nat
  name : String
deriving Repr, DecidableEq

/-- The whole database file: the four tables plus the `AUTOINCREMENT`
counters that produce `lastrowid` for each table with a surrogate key.
`task_tags` is the association table, a list of `(task_id, tag_id)`
pairs. -/
structure DBState where
  projects : List Project
  tasks : List TaskRow
  tags : List Tag
  task_tags : List (Nat × Nat)
  nextProjectId : Nat
  nextTaskId : Nat
  nextTagId : Nat
deriving Repr, DecidableEq

/-- The tag-enrichment query run by every task read path:
`SELECT t.id, t.name FROM tags t JOIN task_tags tt ON t.id = tt.tag_id
WHERE tt.task_id = ?` — one row per association pair of the task,
resolved to the tag with that id. -/
def tagsOfTask (db : DBState) (task_id : Nat) : List Tag :=
  (db.task_tags.filter (fun p => p.1 == task_id)).filterMap
    (fun p => db.tags.find? (fun tg => tg.id == p.2))

/-- `get_task`: `SELECT * FROM tasks WHERE id = ?`, `None` when no row
matches, otherwise the task together with its tag list. -/
def get_task (db : DBState) (task_id : Nat) : Option (TaskRow × List Tag) :=
  match db.tasks.find? (fun t => t.id == task_id) with
  | none => none
  | some t => some (t, tagsOfTask db task_id)

/-- `get_project`: `SELECT * FROM projects WHERE id = ?`. -/
def get_project (db : DBState) (project_id : Nat) : Option Project :=
  db.projects.find? (fun p => p.id == project_id)

/-- `create_task`: inserts the row (the Python keyword defaults supply
`priority="medium"`, `status="pending"`, `project_id=None`,
`due_date=None` when the caller omits them) and returns
`get_task(lastrowid)` on the new state. -/
def create_task (db : DBState) (title description priority status : String)
    (project_id : Option Nat) (due_date : Option String) (now : Nat) :
    DBState × Option (TaskRow × List Tag) :=
  let t : TaskRow :=
    { id := db.nextTaskId, title := title, description := description,
      priority := priority, status := status, project_id := project_id,
      due_date := due_date, created_at := now, updated_at := now }
  let db' : DBState :=
    { db with tasks := db.tasks ++ [t], nextTaskId := db.nextTaskId + 1 }
  (db', get_task db' db.nextTaskId)

/-- SQLite `ORDER BY priority = 'high' DESC` sort key: the boolean
`priority = 'high'` is `1` for high-priority rows and `0` otherwise, and
`DESC` puts the `1`s first, encoded here as key `0`. -/
def highKey (t : TaskRow) : Nat := if t.priority = "high" then 0 else 1

/-- SQLite `due_date ASC` on a nullable `TEXT` column: `NULL` sorts
before every non-`NULL` value in ascending order, and non-`NULL` values
compare lexicographically. -/
@[reducible] def dueDateLe : Option String → Option String → Prop
  | none, _ => True
  | some _, none => False
  | some a, some b => a ≤ b

instance : (a b : Option String) → Decidable (dueDateLe a b)
  | none, _ => isTrue trivial
  | some _, none => isFalse id
  | some a, some b => String.decidableLE a b

/-- The complete `ORDER BY priority = 'high' DESC, due_date ASC` order
used by `list_tasks`, `filter_tasks` and `get_project_tasks`. -/
@[reducible] def taskLe (a b : TaskRow) : Prop :=
  highKey a < highKey b ∨ (highKey a = highKey b ∧ dueDateLe a.due_date b.due_date)

/-- `list_tasks`: the task table ordered as above, paginated by
`OFFSET`/`LIMIT`, each row enriched with its tag list. -/
def list_tasks (db : DBState) (limit offset : Nat) : List (TaskRow × List Tag) :=
  ((((List.insertionSort taskLe db.tasks).drop offset).take limit).map
    (fun t => (t, tagsOfTask db t.id)))

/-- The keyword arguments of `update_task`, split into the recognized
columns (each optionally supplied; supplying `due_date := some none`
writes SQL `NULL`) and the names of any unrecognized keys, which the
allow-list comprehension drops before the `SET` clause is built. -/
structure TaskUpdate where
  title : Option String
  description : Option String
  status : Option String
  priority : Option String
  due_date : Option (Option String)
  extra : List String
deriving Repr, DecidableEq

/-- True when no recognized field was supplied, i.e. the filtered
`update_fields` dict is empty. -/
def TaskUpdate.isEmpty (u : TaskUpdate) : Bool :=
  u.title.isNone && u.description.isNone && u.status.isNone &&
    u.priority.isNone && u.due_date.isNone

/-- Effect of the generated `UPDATE tasks SET ... , updated_at =
CURRENT_TIMESTAMP` statement on one matching row. -/
def applyTaskUpdate (u : TaskUpdate) (now : Nat) (t : TaskRow) : TaskRow :=
  { t with
    title := u.title.getD t.title,
    description := u.description.getD t.description,
    status := u.status.getD t.status,
    priority := u.priority.getD t.priority,
    due_date := u.due_date.getD t.due_date,
    updated_at := now }

/-- `update_task`: with no recognized field it short-circuits to
`get_task` on the unchanged state; otherwise it runs the `UPDATE` on
every row whose `id` matches and returns `get_task` on the new state. -/
def update_task (db : DBState) (task_id : Nat) (u : TaskUpdate) (now : Nat) :
    DBState × Option (TaskRow × List Tag) :=
  if u.isEmpty then (db, get_task db task_id)
  else
    let db' : DBState :=
      { db with tasks :=
          db.tasks.map (fun t => if t.id == task_id then applyTaskUpdate u now t else t) }
    (db', get_task db' task_id)

/-- The keyword arguments of `update_project` (allow-list
`{name, description}`). -/
structure ProjectUpdate where
  name : Option String
  description : Option String
  extra : List String
deriving Repr, DecidableEq

/-- True when no recognized field was supplied. -/
def ProjectUpdate.isEmpty (u : ProjectUpdate) : Bool :=
  u.name.isNone && u.description.isNone

/-- Effect of the generated `UPDATE projects SET ...` statement on one
matching row. -/
def applyProjectUpdate (u : ProjectUpdate) (now : Nat) (p : Project) : Project :=
  { p with
    name := u.name.getD p.name,
    description := u.description.getD p.description,
    updated_at := now }

/-- `update_project`: same shape as `update_task`. -/
def update_project (db : DBState) (project_id : Nat) (u : ProjectUpdate) (now : Nat) :
    DBState × Option Project :=
  if u.isEmpty then (db, get_project db project_id)
  else
    let db' : DBState :=
      { db with projects :=
          db.projects.map (fun p => if p.id == project_id then applyProjectUpdate u now p else p) }
    (db', get_project db' project_id)

/-- `delete_task`: `DELETE FROM tasks WHERE id = ?` then `return True`.
The statement succeeds whether or not a row matched, so the function
returns `True` unconditionally (the `False` branch is reached only on a
storage fault, which the pure model does not produce).  Association rows
are not cleaned up. -/
def delete_task (db : DBState) (task_id : Nat) : DBState × Bool :=
  ({ db with tasks := db.tasks.filter (fun t => t.id != task_id) }, true)

/-- `delete_project`: `DELETE FROM projects WHERE id = ?` then
`return True`; no cascade to tasks. -/
def delete_project (db : DBState) (project_id : Nat) : DBState × Bool :=
  ({ db with projects := db.projects.filter (fun p => p.id != project_id) }, true)

/-- `add_tag`: get-or-create the tag by exact name, then
`INSERT OR IGNORE` the `(task_id, tag_id)` pair — the insert is skipped
exactly when the pair is already present (the unique pair constraint is
modelled from the spec, `schema.sql` not being among the sources).
`task_id` is not checked against the task table: the code never enables
SQLite foreign-key enforcement.  Returns `True` on both paths. -/
def add_tag (db : DBState) (task_id : Nat) (tag_name : String) : DBState × Bool :=
  match db.tags.find? (fun tg => tg.name == tag_name) with
  | some tg =>
      let pairs :=
        if (task_id, tg.id) ∈ db.task_tags then db.task_tags
        else db.task_tags ++ [(task_id, tg.id)]
      ({ db with task_tags := pairs }, true)
  | none =>
      let tg : Tag := { id := db.nextTagId, name := tag_name }
      let pairs :=
        if (task_id, tg.id) ∈ db.task_tags then db.task_tags
        else db.task_tags ++ [(task_id, tg.id)]
      ({ db with tags := db.tags ++ [tg], nextTagId := db.nextTagId + 1,
                 task_tags := pairs }, true)

/-- `remove_tag`: looks the tag up by exact name; `False` when absent,
otherwise deletes the specific `(task_id, tag_id)` pair (a no-op when
the pair is not present) and returns `True`. -/
def remove_tag (db : DBState) (task_id : Nat) (tag_name : String) : DBState × Bool :=
  match db.tags.find? (fun tg => tg.name == tag_name) with
  | none => (db, false)
  | some tg =>
      ({ db with task_tags :=
          db.task_tags.filter (fun p => !(p.1 == task_id && p.2 == tg.id)) }, true)

/-- `list_tags`: `SELECT * FROM tags ORDER BY name`. -/
def list_tags (db : DBState) : List Tag :=
  List.insertionSort (fun a b : Tag => a.name ≤ b.name) db.tags

/-- The keyword arguments of `filter_tasks`: each recognized predicate
optionally present, plus the names of any unrecognized keys.  A
`project_id` criterion carrying SQL `NULL` is `some none` (SQL
`project_id = NULL` matches no row). -/
structure Filters where
  status : Option String
  priority : Option String
  project_id : Option (Option Nat)
  tag_name : Option String
  extra : List String
deriving Repr, DecidableEq

/-- Conjunction of the recognized non-tag predicates, as appended to the
`WHERE` clause. -/
def matchesFilters (f : Filters) (t : TaskRow) : Bool :=
  (match f.status with | none => true | some s => t.status == s) &&
  (match f.priority with | none => true | some pr => t.priority == pr) &&
  (match f.project_id with
    | none => true
    | some none => false
    | some (some v) => t.project_id == some v)

/-- The `tag_name` join test: some association pair of the task resolves
to a tag with exactly that name. -/
def hasTagNamed (db : DBState) (task_id : Nat) (name : String) : Bool :=
  db.task_tags.any (fun p =>
    p.1 == task_id && db.tags.any (fun tg => tg.id == p.2 && tg.name == name))

/-- `filter_tasks`.  Without `tag_name` the recognized predicates are
ANDed onto the query and unrecognized keys are never consulted.  With
`tag_name` the query is rebuilt around the association/tag join, and the
rebuilt `WHERE` clause appends `k = ?` for EVERY other key of the
criteria dict while the parameter list keeps only recognized keys, so:
with an unrecognized key present the statement has more placeholders
than parameters (and names a non-existent column) and fails, and with no
other key at all the joined clause is empty, leaving a dangling `AND`
directly before `ORDER BY` — a syntax error.  In both failure cases the
`except` handler at the bottom of the function returns the empty list.
`SELECT DISTINCT t.*` collapses duplicate join rows, which over a task
table with distinct rows is filtering of the task table itself.  Results
are ordered as in `list_tasks`, without pagination, and tag-enriched. -/
def filter_tasks (db : DBState) (f : Filters) : List (TaskRow × List Tag) :=
  match f.tag_name with
  | none =>
      (List.insertionSort taskLe (db.tasks.filter (matchesFilters f))).map
        (fun t => (t, tagsOfTask db t.id))
  | some tname =>
      if f.extra ≠ [] then []
      else if f.status.isNone && f.priority.isNone && f.project_id.isNone then []
      else
        (List.insertionSort taskLe
          (db.tasks.filter (fun t => hasTagNamed db t.id tname && matchesFilters f t))).map
          (fun t => (t, tagsOfTask db t.id))

/-- Result record of `get_task_statistics`.  The counts are Python ints
(modelled as `Int` so the `total - completed - pending` arithmetic is
literal); the completion rate is `completed / total * 100` in exact
arithmetic when `total > 0` and the literal `0` otherwise. -/
structure Stats where
  total : Int
  completed : Int
  pending : Int
  in_progress : Int
  high_priority : Int
  completion_rate : ℚ
deriving Repr, DecidableEq

/-- `get_task_statistics`: four `COUNT(*)` queries and derived fields. -/
def get_task_statistics (db : DBState) : Stats :=
  let total : Int := db.tasks.length
  let completed : Int := (db.tasks.filter (fun t => t.status == "completed")).length
  let pending : Int := (db.tasks.filter (fun t => t.status == "pending")).length
  let high_priority : Int := (db.tasks.filter (fun t => t.priority == "high")).length
  { total := total, completed := completed, pending := pending,
    in_progress := total - completed - pending,
    high_priority := high_priority,
    completion_rate := if total > 0 then (completed : ℚ) / (total : ℚ) * 100 else 0 }

/-- Well-formedness of a database state, as guaranteed by the schema
constraints modelled from the spec: tag ids are distinct surrogate keys
below the id counter, tag names are unique, and association pairs are
unique with tag ids drawn from the counter range. -/
abbrev WF (db : DBState) : Prop :=
  (db.tags.map Tag.id).Nodup ∧
  (db.tags.map Tag.name).Nodup ∧
  db.task_tags.Nodup ∧
  (∀ tg ∈ db.tags, tg.id < db.nextTagId) ∧
  (∀ p ∈ db.task_tags, p.2 < db.nextTagId)

/-- The tag-of-name test used to phrase the idempotent-tagging claim:
id `i` belongs to a tag named `x`. -/
def tagNamed (tags : List Tag) (i : Nat) (x : String) : Bool :=
  tags.any (fun tg => tg.id == i && tg.name == x)

/-- A fresh database file: all tables empty, surrogate key counters at 1. -/
def emptyDB : DBState :=
  { projects := [], tasks := [], tags := [], task_tags := [],
    nextProjectId := 1, nextTaskId := 1, nextTagId := 1 }

/-- A concrete pending medium-priority task with id 1 and no due date. -/
def sampleTask : TaskRow :=
  { id := 1, title := "a", description := "", priority := "medium",
    status := "pending", project_id := none, due_date := none,
    created_at := 0, updated_at := 0 }

/-- A concrete tag named "x". -/
def sampleTag : Tag := { id := 1, name := "x" }

/-- A database whose single task carries the single tag "x". -/
def taggedDB : DBState :=
  { projects := [], tasks := [sampleTask], tags := [sampleTag],
    task_tags := [(1, 1)], nextProjectId := 1, nextTaskId := 2, nextTagId := 2 }

/-- A concrete task with a due date, same tier as `sampleTask`. -/
def dueTask : TaskRow := { sampleTask with id := 2, due_date := some "2024-01-01" }

/-- A database holding one task without and one task with a due date,
both medium priority. -/
def dueDB : DBState :=
  { projects := [], tasks := [sampleTask, dueTask], tags := [],
    task_tags := [], nextProjectId := 1, nextTaskId := 3, nextTagId := 1 }

/-- Totality of the SQLite due-date order. -/
theorem dueDateLe_total (a b : Option String) : dueDateLe a b ∨ dueDateLe b a := by
  match a, b with
  | none, _ => exact Or.inl trivial
  | some _, none => exact Or.inr trivial
  | some a, some b => exact le_total a b

/-- Transitivity of the SQLite due-date order. -/
theorem dueDateLe_trans {a b c : Option String} (h1 : dueDateLe a b) (h2 : dueDateLe b c) :
    dueDateLe a c := by
  match a, b, c with
  | none, _, _ => exact trivial
  | some _, none, _ => exact absurd h1 id
  | some _, some _, none => exact absurd h2 id
  | some a, some b, some c => exact le_trans h1 h2

instance : IsTotal TaskRow taskLe :=
  ⟨fun a b => by
    rcases Nat.lt_trichotomy (highKey a) (highKey b) with h | h | h
    · exact Or.inl (Or.inl h)
    · rcases dueDateLe_total a.due_date b.due_date with hd | hd
      · exact Or.inl (Or.inr ⟨h, hd⟩)
      · exact Or.inr (Or.inr ⟨h.symm, hd⟩)
    · exact Or.inr (Or.inl h)⟩

instance : IsTrans TaskRow taskLe :=
  ⟨fun a b c hab hbc => by
    rcases hab with h1 | ⟨h1, d1⟩
    · rcases hbc with h2 | ⟨h2, _⟩
      · exact Or.inl (h1.trans h2)
      · exact Or.inl (h2 ▸ h1)
    · rcases hbc with h2 | ⟨h2, d2⟩
      · exact Or.inl (h1 ▸ h2)
      · exact Or.inr ⟨h1.trans h2, dueDateLe_trans d1 d2⟩⟩

/-- The combined order refines the priority-tier order. -/
theorem taskLe_highKey {a b : TaskRow} (h : taskLe a b) : highKey a ≤ highKey b := by
  rcases h with h | ⟨h, _⟩
  · exact Nat.le_of_lt h
  · exact Nat.le_of_eq h

/-- The due-date order exactly as the spec words it: tasks with no due
date sort LAST within their tier. -/
@[reducible] def dueDateLeNullsLast : Option String → Option String → Prop
  | _, none => True
  | none, some _ => False
  | some a, some b => a ≤ b

instance : (a b : Option String) → Decidable (dueDateLeNullsLast a b)
  | none, none => isTrue trivial
  | some _, none => isTrue trivial
  | none, some _ => isFalse id
  | some a, some b => String.decidableLE a b

/-- The spec's claimed output order for `list_tasks`: high-priority tier
first, then due dates ascending with nulls last. -/
@[reducible] def taskLeSpec (a b : TaskRow) : Prop :=
  highKey a < highKey b ∨ (highKey a = highKey b ∧ dueDateLeNullsLast a.due_date b.due_date)

/-- C2 (counterexample): on a store holding a task with no due date and
a task with due date "2024-01-01", both medium priority, `list()` puts
the null-due-date task FIRST — SQLite `ASC` sorts `NULL`s first — so the
claimed priority-then-due-date-nulls-last ordering fails on this output. -/
theorem list_tasks_nulls_last_counterexample :
    ¬ (((list_tasks dueDB 100 0).map Prod.fst).Pairwise taskLeSpec) := by
  intro h
  have hlist : (list_tasks dueDB 100 0).map Prod.fst = [sampleTask, dueTask] := by decide
  rw [hlist] at h
  have hrel := (List.pairwise_cons.mp h).1 dueTask (by simp)
  rcases hrel with h1 | ⟨h2, h3⟩
  · exact absurd h1 (by decide)
  · exact h3

/-- C2 (amended): for every stored task set and every limit/offset, the
output of `list()` is ordered with all priority=high tasks before all
non-high tasks, and within each tier due dates are non-decreasing with
tasks whose due_date is null sorted BEFORE all tasks with a due date in
that tier (ascending-null-FIRST, SQLite's default `ASC` placement). -/
theorem list_tasks_ordering_amended (db : DBState) (limit offset : Nat) :
    ((list_tasks db limit offset).map Prod.fst).Pairwise taskLe ∧
    ((list_tasks db limit offset).map Prod.fst).Pairwise
      (fun a b => highKey a ≤ highKey b) := by
  have hmap : (list_tasks db limit offset).map Prod.fst =
      ((List.insertionSort taskLe db.tasks).drop offset).take limit := by
    simp only [list_tasks, List.map_map]
    rw [show (Prod.fst ∘ fun t : TaskRow => (t, tagsOfTask db t.id)) = (fun t => t) from rfl]
    rw [List.map_id']
  have hs : (((List.insertionSort taskLe db.tasks).drop offset).take limit).Pairwise taskLe :=
    List.Pairwise.sublist ((List.take_sublist _ _).trans (List.drop_sublist _ _))
      (List.sorted_insertionSort taskLe db.tasks)
  rw [hmap]
  exact ⟨hs, hs.imp (fun h => taskLe_highKey h)⟩

/-- C3 (counterexample): id 5 identifies no record in the empty
database, yet both deletes return `true`, not `false` as claimed. -/
theorem delete_missing_id_counterexample :
    (∀ t ∈ emptyDB.tasks, t.id ≠ 5) ∧ (∀ p ∈ emptyDB.projects, p.id ≠ 5) ∧
    (delete_task emptyDB 5).2 = true ∧ (delete_project emptyDB 5).2 = true := by decide

/-- C3 (amended): for every id that does not identify an existing
record, `delete_task` and `delete_project` return TRUE — the `DELETE`
statement succeeds having removed nothing, and the state is unchanged —
while get/update on such an id return an absent result; none of these
raises an error. -/
theorem missing_id_semantics (db : DBState) (idv : Nat) (u : TaskUpdate)
    (v : ProjectUpdate) (now : Nat)
    (ht : ∀ t ∈ db.tasks, t.id ≠ idv) (hp : ∀ p ∈ db.projects, p.id ≠ idv) :
    delete_task db idv = (db, true) ∧ delete_project db idv = (db, true) ∧
    get_task db idv = none ∧ get_project db idv = none ∧
    (update_task db idv u now).2 = none ∧ (update_project db idv v now).2 = none := by
  have hft : db.tasks.find? (fun t => t.id == idv) = none :=
    List.find?_eq_none.mpr (fun t htm => by simpa using ht t htm)
  have hfp : db.projects.find? (fun p => p.id == idv) = none :=
    List.find?_eq_none.mpr (fun p hpm => by simpa using hp p hpm)
  have hget : get_task db idv = none := by rw [get_task, hft]
  have hgep : get_project db idv = none := by rw [get_project, hfp]
  refine ⟨?_, ?_, hget, hgep, ?_, ?_⟩
  · have h1 : db.tasks.filter (fun t => t.id != idv) = db.tasks :=
      List.filter_eq_self.mpr (fun t htm => by simpa [bne_iff_ne] using ht t htm)
    simp [delete_task, h1]
  · have h1 : db.projects.filter (fun p => p.id != idv) = db.projects :=
      List.filter_eq_self.mpr (fun p hpm => by simpa [bne_iff_ne] using hp p hpm)
    simp [delete_project, h1]
  · by_cases hu : u.isEmpty
    · simp [update_task, hu, hget]
    · have hmapeq : db.tasks.map
          (fun t => if t.id == idv then applyTaskUpdate u now t else t) = db.tasks := by
        have h2 : db.tasks.map
            (fun t => if t.id == idv then applyTaskUpdate u now t else t) =
            db.tasks.map (fun t => t) :=
          List.map_congr_left (fun t htm => by simp [beq_eq_false_iff_ne.mpr (ht t htm)])
        rw [h2, List.map_id']
      simp only [update_task]
      rw [if_neg hu]
      show get_task
        { db with tasks := db.tasks.map (fun t => if t.id == idv then applyTaskUpdate u now t else t) }
        idv = none
      rw [hmapeq]
      exact hget
  · by_cases hv : v.isEmpty
    · simp [update_project, hv, hgep]
    · have hmapeq : db.projects.map
          (fun p => if p.id == idv then applyProjectUpdate v now p else p) = db.projects := by
        have h2 : db.projects.map
            (fun p => if p.id == idv then applyProjectUpdate v now p else p) =
            db.projects.map (fun p => p) :=
          List.map_congr_left (fun p hpm => by simp [beq_eq_false_iff_ne.mpr (hp p hpm)])
        rw [h2, List.map_id']
      simp only [update_project]
      rw [if_neg hv]
      show get_project
        { db with projects := db.projects.map (fun p => if p.id == idv then applyProjectUpdate v now p else p) }
        idv = none
      rw [hmapeq]
      exact hgep

/-- C3 (witness): the amended theorem applied at the empty database and
the missing id 5. -/
theorem missing_id_semantics_witness :
    delete_task emptyDB 5 = (emptyDB, true) ∧ get_task emptyDB 5 = none ∧
    (update_task emptyDB 5 ⟨some "t", none, none, none, none, []⟩ 0).2 = none := by
  have h := missing_id_semantics emptyDB 5 ⟨some "t", none, none, none, none, []⟩
    ⟨none, none, []⟩ 0 (by decide) (by decide)
  exact ⟨h.1, h.2.2.1, h.2.2.2.2.1⟩

/-- C1: in a state whose single task (id 1) carries the tag "x", the
filter with `tag_name` as the ONLY criterion returns the empty list
instead of that task.  The code rebuilds the query around the tag join
and appends the other criteria with a leading `AND`, so with no other
criterion the statement ends `... WHERE tg.name = ? AND ORDER BY ...` —
invalid SQL; the raised error is caught and turned into `[]`.  Adding a
recognized second criterion (last conjunct) produces the intended
result, showing the join itself is what the code meant to run. -/
theorem filter_tag_only_criterion_bug :
    hasTagNamed taggedDB 1 "x" = true ∧
    get_task taggedDB 1 = some (sampleTask, [sampleTag]) ∧
    filter_tasks taggedDB ⟨none, none, none, some "x", []⟩ = [] ∧
    filter_tasks taggedDB ⟨some "pending", none, none, some "x", []⟩ =
      [(sampleTask, [sampleTag])] := by decide

/-- C4: with `tag_name` present, an unrecognized key is NOT ignored: the
rebuilt join query appends `bogus = ?` to the `WHERE` clause (the clause
builder iterates over ALL other keys) while the parameter list keeps
only recognized keys, so the statement fails and the result is `[]`,
whereas the same criteria without the unrecognized key return the
matching task.  Without `tag_name` (last conjunct) unrecognized keys are
ignored as claimed. -/
theorem filter_unrecognized_key_with_tag_bug :
    filter_tasks taggedDB ⟨some "pending", none, none, some "x", ["bogus"]⟩ = [] ∧
    filter_tasks taggedDB ⟨some "pending", none, none, some "x", []⟩ =
      [(sampleTask, [sampleTag])] ∧
    filter_tasks taggedDB ⟨some "pending", none, none, none, ["bogus"]⟩ =
      filter_tasks taggedDB ⟨some "pending", none, none, none, []⟩ := by decide

/-- C6 (as amended): `get` immediately after `create` returns a record
whose fields equal the `create` inputs (the Python signature supplies
the defaults priority="medium", status="pending" when the caller omits
them), and the tag list is empty PROVIDED no association row already
references the fresh rowid.  `hids` is an invariant of every reachable
state — task ids come from the rowid counter — but `hpairs` is not:
`add_tag` accepts a task_id that references no task (see the C10
theorem) and records an orphan pair, which the next created task
silently adopts; the counterexample below exhibits exactly that. -/
theorem create_then_get_roundtrip (db : DBState)
    (title description priority status : String) (project_id : Option Nat)
    (due_date : Option String) (now : Nat)
    (hids : ∀ t ∈ db.tasks, t.id ≠ db.nextTaskId)
    (hpairs : ∀ p ∈ db.task_tags, p.1 ≠ db.nextTaskId) :
    (create_task db title description priority status project_id due_date now).2 =
      some ({ id := db.nextTaskId, title := title, description := description,
              priority := priority, status := status, project_id := project_id,
              due_date := due_date, created_at := now, updated_at := now }, []) := by
  have hfnone : db.tasks.find? (fun t => t.id == db.nextTaskId) = none :=
    List.find?_eq_none.mpr (fun t htm => by simpa using hids t htm)
  have hfilter : db.task_tags.filter (fun p => p.1 == db.nextTaskId) = [] :=
    List.filter_eq_nil_iff.mpr (fun p hpm => by simpa using hpairs p hpm)
  show (get_task _ db.nextTaskId) = _
  rw [get_task, List.find?_append, hfnone, Option.none_or]
  rw [show (List.find? (fun t => t.id == db.nextTaskId)
      [({ id := db.nextTaskId, title := title, description := description,
          priority := priority, status := status, project_id := project_id,
          due_date := due_date, created_at := now, updated_at := now } : TaskRow)]) =
      some { id := db.nextTaskId, title := title, description := description,
             priority := priority, status := status, project_id := project_id,
             due_date := due_date, created_at := now, updated_at := now }
    from by simp [List.find?_cons]]
  rw [tagsOfTask]
  show some (_, (db.task_tags.filter (fun p => p.1 == db.nextTaskId)).filterMap _) = _
  rw [hfilter]
  rfl

/-- C6 (witness): the round trip at the empty database with the default
priority and status. -/
theorem create_then_get_roundtrip_witness :
    (create_task emptyDB "Ship" "" "medium" "pending" none none 0).2 =
      some ({ id := 1, title := "Ship", description := "", priority := "medium",
              status := "pending", project_id := none, due_date := none,
              created_at := 0, updated_at := 0 }, []) :=
  create_then_get_roundtrip emptyDB "Ship" "" "medium" "pending" none none 0
    (by decide) (by decide)

/-- C6 (counterexample to the claim as stated): on the empty store,
`add_tag(1, "x")` records the orphan pair (1, 1) — task id 1 does not
exist and foreign keys are off — and then `create_task` assigns the new
task rowid 1, so `get` immediately after `create` returns the tag list
["x"], not the empty list the claim promises for every creation. -/
theorem create_nonempty_tags_counterexample :
    (create_task (add_tag emptyDB 1 "x").1 "Ship" "" "medium" "pending" none none 0).2 =
      some ({ id := 1, title := "Ship", description := "", priority := "medium",
              status := "pending", project_id := none, due_date := none,
              created_at := 0, updated_at := 0 }, [{ id := 1, name := "x" }]) ∧
    ((create_task (add_tag emptyDB 1 "x").1 "Ship" "" "medium" "pending" none none 0).2.map
        Prod.snd) ≠ some ([] : List Tag) := by decide

/-- C9: the statistics record always satisfies
completed + pending + in_progress = total — the code computes
in_progress as total − completed − pending, silently folding "blocked"
into it — and the completion rate is the literal 0 when total is 0, the
division being guarded by `total > 0`. -/
theorem statistics_consistent (db : DBState) :
    (get_task_statistics db).completed + (get_task_statistics db).pending +
        (get_task_statistics db).in_progress = (get_task_statistics db).total ∧
    ((get_task_statistics db).total = 0 → (get_task_statistics db).completion_rate = 0) := by
  constructor
  · simp only [get_task_statistics]
    ring
  · intro h
    simp only [get_task_statistics] at h ⊢
    rw [if_neg (by omega)]

/-- C9 (witness): the consistency theorem applied at the empty store,
where total is 0 and the completion rate is 0. -/
theorem statistics_consistent_witness :
    (get_task_statistics emptyDB).completion_rate = 0 :=
  (statistics_consistent emptyDB).2 (by decide)

/-- C7: partial-update frame property for both entities.  Unrecognized
keyword arguments are dropped by the allow-list before the `SET` clause
is built (conjuncts 1-2), an update supplying no recognized field
returns the current row on the untouched state, `updated_at` included
(conjuncts 3-4), an update never touches the other tables (conjuncts
5-8) or rows with a different id (conjuncts 9-10), and on the targeted
row exactly the supplied recognized fields plus `updated_at` change
while id, `created_at` and the non-updatable `project_id` are preserved
(conjuncts 11-14). -/
theorem update_partial_frame (db : DBState) (task_id project_id : Nat)
    (u : TaskUpdate) (v : ProjectUpdate) (now : Nat) :
    update_task db task_id u now = update_task db task_id
      { title := u.title, description := u.description, status := u.status,
        priority := u.priority, due_date := u.due_date, extra := [] } now ∧
    update_project db project_id v now = update_project db project_id
      { name := v.name, description := v.description, extra := [] } now ∧
    (u.isEmpty = true → update_task db task_id u now = (db, get_task db task_id)) ∧
    (v.isEmpty = true → update_project db project_id v now = (db, get_project db project_id)) ∧
    (update_task db task_id u now).1.projects = db.projects ∧
    (update_task db task_id u now).1.tags = db.tags ∧
    (update_task db task_id u now).1.task_tags = db.task_tags ∧
    (update_project db project_id v now).1.tasks = db.tasks ∧
    (∀ t ∈ db.tasks, t.id ≠ task_id → t ∈ (update_task db task_id u now).1.tasks) ∧
    (∀ p ∈ db.projects, p.id ≠ project_id →
       p ∈ (update_project db project_id v now).1.projects) ∧
    (u.isEmpty = false → ∀ t ∈ db.tasks, t.id = task_id →
       applyTaskUpdate u now t ∈ (update_task db task_id u now).1.tasks) ∧
    (∀ t : TaskRow,
       (applyTaskUpdate u now t).id = t.id ∧
       (applyTaskUpdate u now t).created_at = t.created_at ∧
       (applyTaskUpdate u now t).project_id = t.project_id ∧
       (applyTaskUpdate u now t).updated_at = now ∧
       (u.title = none → (applyTaskUpdate u now t).title = t.title) ∧
       (∀ s, u.title = some s → (applyTaskUpdate u now t).title = s) ∧
       (u.description = none → (applyTaskUpdate u now t).description = t.description) ∧
       (∀ s, u.description = some s → (applyTaskUpdate u now t).description = s) ∧
       (u.status = none → (applyTaskUpdate u now t).status = t.status) ∧
       (∀ s, u.status = some s → (applyTaskUpdate u now t).status = s) ∧
       (u.priority = none → (applyTaskUpdate u now t).priority = t.priority) ∧
       (∀ s, u.priority = some s → (applyTaskUpdate u now t).priority = s) ∧
       (u.due_date = none → (applyTaskUpdate u now t).due_date = t.due_date) ∧
       (∀ s, u.due_date = some s → (applyTaskUpdate u now t).due_date = s)) ∧
    (v.isEmpty = false → ∀ p ∈ db.projects, p.id = project_id →
       applyProjectUpdate v now p ∈ (update_project db project_id v now).1.projects) ∧
    (∀ p : Project,
       (applyProjectUpdate v now p).id = p.id ∧
       (applyProjectUpdate v now p).created_at = p.created_at ∧
       (applyProjectUpdate v now p).updated_at = now ∧
       (v.name = none → (applyProjectUpdate v now p).name = p.name) ∧
       (∀ s, v.name = some s → (applyProjectUpdate v now p).name = s) ∧
       (v.description = none → (applyProjectUpdate v now p).description = p.description) ∧
       (∀ s, v.description = some s → (applyProjectUpdate v now p).description = s)) := by
  refine ⟨?_, ?_, ?_, ?_, ?_, ?_, ?_, ?_, ?_, ?_, ?_, ?_, ?_, ?_⟩
  · cases u
    rfl
  · cases v
    rfl
  · intro h
    simp [update_task, h]
  · intro h
    simp [update_project, h]
  · by_cases h : u.isEmpty <;> simp [update_task, h]
  · by_cases h : u.isEmpty <;> simp [update_task, h]
  · by_cases h : u.isEmpty <;> simp [update_task, h]
  · by_cases h : v.isEmpty <;> simp [update_project, h]
  · intro t htm hne
    by_cases h : u.isEmpty
    · simpa [update_task, h] using htm
    · simp only [update_task, h, Bool.false_eq_true, if_false]
      exact List.mem_map.mpr ⟨t, htm, by simp [beq_eq_false_iff_ne.mpr hne]⟩
  · intro p hpm hne
    by_cases h : v.isEmpty
    · simpa [update_project, h] using hpm
    · simp only [update_project, h, Bool.false_eq_true, if_false]
      exact List.mem_map.mpr ⟨p, hpm, by simp [beq_eq_false_iff_ne.mpr hne]⟩
  · intro h t htm heq
    simp only [update_task, h, Bool.false_eq_true, if_false]
    exact List.mem_map.mpr ⟨t, htm, by simp [heq]⟩
  · intro t
    refine ⟨rfl, rfl, rfl, rfl, ?_, ?_, ?_, ?_, ?_, ?_, ?_, ?_, ?_, ?_⟩ <;>
      first
        | (intro h; simp [applyTaskUpdate, h])
        | (intro s h; simp [applyTaskUpdate, h])
  · intro h p hpm heq
    simp only [update_project, h, Bool.false_eq_true, if_false]
    exact List.mem_map.mpr ⟨p, hpm, by simp [heq]⟩
  · intro p
    refine ⟨rfl, rfl, rfl, ?_, ?_, ?_, ?_⟩ <;>
      first
        | (intro h; simp [applyProjectUpdate, h])
        | (intro s h; simp [applyProjectUpdate, h])

/-- C7 (witness): the frame theorem at a one-task store, an update
supplying only a new title together with an unrecognized key. -/
theorem update_partial_frame_witness :
    update_task taggedDB 1 ⟨some "b", none, none, none, none, ["junk"]⟩ 7 =
      update_task taggedDB 1 ⟨some "b", none, none, none, none, []⟩ 7 ∧
    applyTaskUpdate ⟨some "b", none, none, none, none, ["junk"]⟩ 7 sampleTask ∈
      (update_task taggedDB 1 ⟨some "b", none, none, none, none, ["junk"]⟩ 7).1.tasks := by
  obtain ⟨h1, _, _, _, _, _, _, _, _, _, h11, _⟩ :=
    update_partial_frame taggedDB 1 1 ⟨some "b", none, none, none, none, ["junk"]⟩
      ⟨none, none, []⟩ 7
  exact ⟨h1, h11 (by decide) sampleTask (by decide) (by decide)⟩

/-- Both branches of `add_tag` end in `return True`. -/
theorem add_tag_snd (db : DBState) (task_id : Nat) (x : String) :
    (add_tag db task_id x).2 = true := by
  cases hf : db.tags.find? (fun tg => tg.name == x) <;> simp [add_tag, hf]

/-- With unique tag names, two stored tags with the same name coincide. -/
theorem mem_name_unique {l : List Tag} (h : (l.map Tag.name).Nodup)
    {a b : Tag} (ha : a ∈ l) (hb : b ∈ l) (hn : a.name = b.name) : a = b :=
  List.inj_on_of_nodup_map h ha hb hn

/-- With unique tag ids, resolving an id through `find?` and testing the
name is the same as asking whether some stored tag has that id and
name. -/
theorem findTag_name (tags : List Tag) (hid : (tags.map Tag.id).Nodup)
    (j : Nat) (x : String) :
    (Option.map (fun tg => tg.name == x) (tags.find? (fun tg => tg.id == j))).getD false =
      tagNamed tags j x := by
  cases hf : tags.find? (fun tg => tg.id == j) with
  | none =>
    have hno : ∀ tg ∈ tags, tg.id ≠ j :=
      fun tg htm => by simpa using List.find?_eq_none.mp hf tg htm
    have : tagNamed tags j x = false := by
      rw [tagNamed]
      rw [List.any_eq_false]
      intro tg htm
      simp [hno tg htm]
    simp [this]
  | some tg0 =>
    have h0mem : tg0 ∈ tags := List.mem_of_find?_eq_some hf
    have h0id : tg0.id = j := by simpa using List.find?_some hf
    by_cases hnx : tg0.name = x
    · have : tagNamed tags j x = true := by
        rw [tagNamed, List.any_eq_true]
        exact ⟨tg0, h0mem, by simp [h0id, hnx]⟩
      simp [this, hnx]
    · have : tagNamed tags j x = false := by
        rw [tagNamed, List.any_eq_false]
        intro tg htm
        by_cases hidj : tg.id = j
        · have : tg = tg0 := List.inj_on_of_nodup_map hid htm h0mem (by rw [hidj, h0id])
          subst this
          simp [hnx]
        · simp [hidj]
      simp [this, hnx]

/-- In a duplicate-free list, a stored element is counted exactly once. -/
theorem countP_decide_eq_one {α : Type} [DecidableEq α] {l : List α} (hl : l.Nodup)
    {a : α} (ha : a ∈ l) : l.countP (fun p => decide (p = a)) = 1 := by
  induction l with
  | nil => cases ha
  | cons b l ih =>
    rw [List.countP_cons]
    rcases List.mem_cons.mp ha with rfl | hm
    · have h0 : l.countP (fun p => decide (p = a)) = 0 := by
        rw [List.countP_eq_zero]
        intro p hp
        simp only [decide_eq_true_eq]
        exact fun he => (List.nodup_cons.mp hl).1 (he ▸ hp)
      simp [h0]
    · have hne : b ≠ a := fun he => (List.nodup_cons.mp hl).1 (he ▸ hm)
      rw [ih (List.nodup_cons.mp hl).2 hm]
      simp [hne]

/-- Re-running `add_tag` when the tag already exists and the pair is
already stored changes nothing and reports success. -/
theorem add_tag_noop (db1 : DBState) (task_id : Nat) (x : String) (tg : Tag)
    (hf : db1.tags.find? (fun tg => tg.name == x) = some tg)
    (hmem : (task_id, tg.id) ∈ db1.task_tags) :
    add_tag db1 task_id x = (db1, true) := by
  simp only [add_tag, hf]
  rw [if_pos hmem]

/-- What a single `add_tag` call guarantees on a well-formed state:
afterwards there is a tag named `x`, it is the only one, the tag tables
stay well-formed, the `(task_id, tag)` pair occurs exactly once in the
association table, and repeating the very same call is a successful
no-op on the state. -/
theorem add_tag_post (db : DBState) (task_id : Nat) (x : String) (h : WF db) :
    ∃ i : Nat,
      ((add_tag db task_id x).1.tags.map Tag.id).Nodup ∧
      ((add_tag db task_id x).1.tags.map Tag.name).Nodup ∧
      (⟨i, x⟩ : Tag) ∈ (add_tag db task_id x).1.tags ∧
      (∀ tg ∈ (add_tag db task_id x).1.tags, tg.name = x → tg = ⟨i, x⟩) ∧
      (add_tag db task_id x).1.task_tags.countP
        (fun p => decide (p = (task_id, i))) = 1 ∧
      (add_tag db task_id x).1.task_tags.Nodup ∧
      add_tag (add_tag db task_id x).1 task_id x = ((add_tag db task_id x).1, true) := by
  obtain ⟨hid, hname, hpairs, htagbound, hpairbound⟩ := h
  cases hf : db.tags.find? (fun tg => tg.name == x) with
  | some tg =>
    have hstate : add_tag db task_id x =
        ({ db with task_tags := if (task_id, tg.id) ∈ db.task_tags then db.task_tags
            else db.task_tags ++ [(task_id, tg.id)] }, true) := by
      simp only [add_tag, hf]
    have htgmem : tg ∈ db.tags := List.mem_of_find?_eq_some hf
    have htgx : tg.name = x := by simpa using List.find?_some hf
    have htg_eq : (⟨tg.id, x⟩ : Tag) = tg := by
      cases tg with
      | mk tid tname => simpa using htgx.symm
    have hmem1 : (task_id, tg.id) ∈
        (if (task_id, tg.id) ∈ db.task_tags then db.task_tags
          else db.task_tags ++ [(task_id, tg.id)]) := by
      by_cases hmem : (task_id, tg.id) ∈ db.task_tags
      · rw [if_pos hmem]; exact hmem
      · rw [if_neg hmem]
        exact List.mem_append.mpr (Or.inr (List.mem_singleton.mpr rfl))
    have hnodup1 : (if (task_id, tg.id) ∈ db.task_tags then db.task_tags
        else db.task_tags ++ [(task_id, tg.id)]).Nodup := by
      by_cases hmem : (task_id, tg.id) ∈ db.task_tags
      · rw [if_pos hmem]; exact hpairs
      · rw [if_neg hmem, List.nodup_append]
        exact ⟨hpairs, List.nodup_singleton _, List.disjoint_singleton.mpr hmem⟩
    refine ⟨tg.id, ?_, ?_, ?_, ?_, ?_, ?_, ?_⟩
    · rw [hstate]; exact hid
    · rw [hstate]; exact hname
    · rw [hstate]; exact htg_eq ▸ htgmem
    · rw [hstate]
      intro tg' hmem' hname'
      have h1 : tg' = tg := mem_name_unique hname hmem' htgmem (hname'.trans htgx.symm)
      rw [h1]
      exact htg_eq.symm
    · rw [hstate]
      exact countP_decide_eq_one hnodup1 hmem1
    · rw [hstate]
      exact hnodup1
    · rw [hstate]
      exact add_tag_noop _ task_id x tg hf hmem1
  | none =>
    have hnotmem : (task_id, db.nextTagId) ∉ db.task_tags :=
      fun hm => Nat.lt_irrefl _ (hpairbound _ hm)
    have hstate : add_tag db task_id x =
        ({ db with tags := db.tags ++ [⟨db.nextTagId, x⟩], nextTagId := db.nextTagId + 1, task_tags := db.task_tags ++ [(task_id, db.nextTagId)] }, true) := by
      simp only [add_tag, hf]
      rw [if_neg hnotmem]
    have hxnot : ∀ tg ∈ db.tags, tg.name ≠ x :=
      fun tg htm => by simpa using List.find?_eq_none.mp hf tg htm
    have hmem1 : (task_id, db.nextTagId) ∈ db.task_tags ++ [(task_id, db.nextTagId)] :=
      List.mem_append.mpr (Or.inr (List.mem_singleton.mpr rfl))
    have hnodup1 : (db.task_tags ++ [(task_id, db.nextTagId)]).Nodup := by
      rw [List.nodup_append]
      exact ⟨hpairs, List.nodup_singleton _, List.disjoint_singleton.mpr hnotmem⟩
    have hffull : (db.tags ++ [(⟨db.nextTagId, x⟩ : Tag)]).find?
        (fun tg => tg.name == x) = some ⟨db.nextTagId, x⟩ := by
      rw [List.find?_append, hf, Option.none_or]
      simp [List.find?_cons]
    refine ⟨db.nextTagId, ?_, ?_, ?_, ?_, ?_, ?_, ?_⟩
    · rw [hstate]
      show ((db.tags ++ [(⟨db.nextTagId, x⟩ : Tag)]).map Tag.id).Nodup
      rw [List.map_append, List.nodup_append]
      refine ⟨hid, List.nodup_singleton _, List.disjoint_singleton.mpr ?_⟩
      intro hm
      obtain ⟨tg, htm, hideq⟩ := List.mem_map.mp hm
      exact Nat.lt_irrefl _ (hideq ▸ htagbound tg htm)
    · rw [hstate]
      show ((db.tags ++ [(⟨db.nextTagId, x⟩ : Tag)]).map Tag.name).Nodup
      rw [List.map_append, List.nodup_append]
      refine ⟨hname, List.nodup_singleton _, List.disjoint_singleton.mpr ?_⟩
      intro hm
      obtain ⟨tg, htm, hneq⟩ := List.mem_map.mp hm
      exact hxnot tg htm hneq
    · rw [hstate]
      exact List.mem_append.mpr (Or.inr (List.mem_singleton.mpr rfl))
    · rw [hstate]
      intro tg' hmem' hname'
      rcases List.mem_append.mp hmem' with hl | hr
      · exact absurd hname' (hxnot tg' hl)
      · exact List.mem_singleton.mp hr
    · rw [hstate]
      exact countP_decide_eq_one hnodup1 hmem1
    · rw [hstate]
      exact hnodup1
    · rw [hstate]
      exact add_tag_noop _ task_id x ⟨db.nextTagId, x⟩ hffull hmem1

/-- C5: add_tag is idempotent on a well-formed state — the first call
succeeds, the second identical call is a successful no-op on the state,
afterwards exactly one association pair joins the task to a tag named
`x`, and the tag list read back for the task mentions `x` exactly once.
The pair-uniqueness constraint of the association table comes from the
schema, which is modelled from the spec (`WF`). -/
theorem add_tag_idempotent (db : DBState) (task_id : Nat) (x : String) (h : WF db) :
    (add_tag db task_id x).2 = true ∧
    add_tag (add_tag db task_id x).1 task_id x = ((add_tag db task_id x).1, true) ∧
    (add_tag (add_tag db task_id x).1 task_id x).1.task_tags.countP
      (fun p => p.1 == task_id &&
        tagNamed (add_tag (add_tag db task_id x).1 task_id x).1.tags p.2 x) = 1 ∧
    (tagsOfTask (add_tag (add_tag db task_id x).1 task_id x).1 task_id).countP
      (fun tg => tg.name == x) = 1 := by
  obtain ⟨i, hid1, hname1, hmemtag, huniq, hcount, hnodup1, hnoop⟩ :=
    add_tag_post db task_id x h
  have hpt : ∀ p : Nat × Nat,
      (p.1 == task_id && tagNamed (add_tag db task_id x).1.tags p.2 x) =
        decide (p = (task_id, i)) := by
    intro p
    rw [Bool.eq_iff_iff]
    constructor
    · intro hb
      rw [Bool.and_eq_true] at hb
      obtain ⟨h1, h2⟩ := hb
      rw [tagNamed, List.any_eq_true] at h2
      obtain ⟨tg, htm, htg⟩ := h2
      rw [Bool.and_eq_true] at htg
      have hid2 : tg.id = p.2 := by simpa using htg.1
      have hnm : tg.name = x := by simpa using htg.2
      have heqtg := huniq tg htm hnm
      have hp2 : p.2 = i := by rw [← hid2, heqtg]
      have hp1 : p.1 = task_id := by simpa using h1
      simp [Prod.ext_iff, hp1, hp2]
    · intro hb
      have hp : p = (task_id, i) := by simpa using hb
      subst hp
      rw [Bool.and_eq_true]
      refine ⟨by simp, ?_⟩
      rw [tagNamed, List.any_eq_true]
      exact ⟨⟨i, x⟩, hmemtag, by simp⟩
  refine ⟨add_tag_snd db task_id x, hnoop, ?_, ?_⟩
  · rw [hnoop]
    show (add_tag db task_id x).1.task_tags.countP
      (fun p => p.1 == task_id && tagNamed (add_tag db task_id x).1.tags p.2 x) = 1
    refine Eq.trans (List.countP_congr ?_) hcount
    intro p hp
    rw [hpt p]
  · rw [hnoop]
    show (tagsOfTask (add_tag db task_id x).1 task_id).countP
      (fun tg => tg.name == x) = 1
    rw [tagsOfTask, List.countP_filterMap, List.countP_filter]
    refine Eq.trans (List.countP_congr ?_) hcount
    intro p hp
    rw [findTag_name _ hid1 p.2 x, Bool.and_comm]
    rw [hpt p]

/-- C5 (witness): the idempotence theorem at the empty database; the two
calls create tag "x" once and associate it with task id 1 once. -/
theorem add_tag_idempotent_witness :
    WF emptyDB ∧
    add_tag (add_tag emptyDB 1 "x").1 1 "x" = ((add_tag emptyDB 1 "x").1, true) ∧
    (tagsOfTask (add_tag (add_tag emptyDB 1 "x").1 1 "x").1 1).countP
      (fun tg => tg.name == "x") = 1 := by
  have h := add_tag_idempotent emptyDB 1 "x" (by decide)
  exact ⟨by decide, h.2.1, h.2.2.2⟩

/-- C8: `remove_tag` reports `false` exactly when no tag with the given
name exists; when one exists, the call returns `true` and removes
precisely the `(task_id, tag)` pair — whether or not the pair was
present and whether or not the task exists — touching no other pair.
The tag-name uniqueness hypothesis is the schema `UNIQUE` constraint. -/
theorem remove_tag_spec (db : DBState) (task_id : Nat) (name : String)
    (h : (db.tags.map Tag.name).Nodup) :
    ((remove_tag db task_id name).2 = false ↔ ∀ tg ∈ db.tags, tg.name ≠ name) ∧
    (∀ tg ∈ db.tags, tg.name = name →
      (remove_tag db task_id name).2 = true ∧
      (task_id, tg.id) ∉ (remove_tag db task_id name).1.task_tags ∧
      (∀ p ∈ db.task_tags, ¬(p.1 = task_id ∧ p.2 = tg.id) →
        p ∈ (remove_tag db task_id name).1.task_tags) ∧
      (∀ p ∈ (remove_tag db task_id name).1.task_tags, p ∈ db.task_tags)) := by
  cases hf : db.tags.find? (fun tg => tg.name == name) with
  | none =>
    have hno : ∀ tg ∈ db.tags, tg.name ≠ name :=
      fun tg htm => by simpa using List.find?_eq_none.mp hf tg htm
    have hstate : remove_tag db task_id name = (db, false) := by
      simp only [remove_tag, hf]
    constructor
    · rw [hstate]
      exact iff_of_true rfl hno
    · intro tg htm hnm
      exact absurd hnm (hno tg htm)
  | some tg0 =>
    have h0mem : tg0 ∈ db.tags := List.mem_of_find?_eq_some hf
    have h0nm : tg0.name = name := by simpa using List.find?_some hf
    have hstate : remove_tag db task_id name =
        ({ db with task_tags := db.task_tags.filter (fun p => !(p.1 == task_id && p.2 == tg0.id)) }, true) := by
      simp only [remove_tag, hf]
    constructor
    · rw [hstate]
      exact iff_of_false (by simp) (fun hall => hall tg0 h0mem h0nm)
    · intro tg htm hnm
      have hteq : tg = tg0 := mem_name_unique h htm h0mem (hnm.trans h0nm.symm)
      subst hteq
      refine ⟨by rw [hstate], ?_, ?_, ?_⟩
      · rw [hstate]
        intro hmem
        have hpred := (List.mem_filter.mp hmem).2
        simp at hpred
      · intro p hp hnot
        rw [hstate]
        refine List.mem_filter.mpr ⟨hp, ?_⟩
        rcases not_and_or.mp hnot with h1 | h2
        · simp [h1]
        · simp [h2]
      · intro p hp
        rw [hstate] at hp
        exact (List.mem_filter.mp hp).1

/-- C8 (witness): the theorem at the one-tag store — removing "x" from
task 1 succeeds and deletes the pair; removing an absent name fails. -/
theorem remove_tag_spec_witness :
    (remove_tag taggedDB 1 "x").2 = true ∧
    (1, 1) ∉ (remove_tag taggedDB 1 "x").1.task_tags ∧
    (remove_tag taggedDB 1 "nope").2 = false := by
  have h := remove_tag_spec taggedDB 1 "x" (by decide)
  have h2 := h.2 sampleTag (by decide) (by decide)
  have h3 := remove_tag_spec taggedDB 1 "nope" (by decide)
  exact ⟨h2.1, h2.2.1, h3.1.mpr (by decide)⟩

/-- C10: for EVERY task_id — the statement has no hypothesis tying
task_id to an existing task, so in particular for an id referencing no
task — `add_tag` returns `true`, a tag with the requested name exists
afterwards and is observable through `list_tags`, and the
`(task_id, tag)` association pair is recorded: the code never enables
SQLite foreign-key enforcement, so the orphan pair is accepted. -/
theorem add_tag_nonexistent_task (db : DBState) (task_id : Nat) (name : String) :
    (add_tag db task_id name).2 = true ∧
    (∃ tg ∈ (add_tag db task_id name).1.tags, tg.name = name ∧
      (task_id, tg.id) ∈ (add_tag db task_id name).1.task_tags) ∧
    (∃ tg ∈ list_tags (add_tag db task_id name).1, tg.name = name) := by
  refine ⟨add_tag_snd db task_id name, ?_, ?_⟩ <;>
    · cases hf : db.tags.find? (fun tg => tg.name == name) with
      | some tg =>
        have hstate : add_tag db task_id name =
            ({ db with task_tags := if (task_id, tg.id) ∈ db.task_tags then db.task_tags else db.task_tags ++ [(task_id, tg.id)] }, true) := by
          simp only [add_tag, hf]
        have htgmem : tg ∈ db.tags := List.mem_of_find?_eq_some hf
        have htgnm : tg.name = name := by simpa using List.find?_some hf
        have hmem1 : (task_id, tg.id) ∈ (if (task_id, tg.id) ∈ db.task_tags then db.task_tags else db.task_tags ++ [(task_id, tg.id)]) := by
          by_cases hmem : (task_id, tg.id) ∈ db.task_tags
          · rw [if_pos hmem]; exact hmem
          · rw [if_neg hmem]
            exact List.mem_append.mpr (Or.inr (List.mem_singleton.mpr rfl))
        rw [hstate]
        first
          | exact ⟨tg, htgmem, htgnm, hmem1⟩
          | · simp only [list_tags]
              exact ⟨tg, (List.mem_insertionSort _).mpr htgmem, htgnm⟩
      | none =>
        have hstate : add_tag db task_id name =
            ({ db with tags := db.tags ++ [⟨db.nextTagId, name⟩], nextTagId := db.nextTagId + 1, task_tags := if (task_id, db.nextTagId) ∈ db.task_tags then db.task_tags else db.task_tags ++ [(task_id, db.nextTagId)] }, true) := by
          simp only [add_tag, hf]
        have htgmem : (⟨db.nextTagId, name⟩ : Tag) ∈ db.tags ++ [(⟨db.nextTagId, name⟩ : Tag)] :=
          List.mem_append.mpr (Or.inr (List.mem_singleton.mpr rfl))
        have hmem1 : (task_id, db.nextTagId) ∈ (if (task_id, db.nextTagId) ∈ db.task_tags then db.task_tags else db.task_tags ++ [(task_id, db.nextTagId)]) := by
          by_cases hmem : (task_id, db.nextTagId) ∈ db.task_tags
          · rw [if_pos hmem]; exact hmem
          · rw [if_neg hmem]
            exact List.mem_append.mpr (Or.inr (List.mem_singleton.mpr rfl))
        rw [hstate]
        first
          | exact ⟨⟨db.nextTagId, name⟩, htgmem, rfl, hmem1⟩
          | · simp only [list_tags]
              exact ⟨⟨db.nextTagId, name⟩, (List.mem_insertionSort _).mpr htgmem, rfl⟩
